import Mathlib

/-!
Verification development for the vapi-assistant route of the
AI-Powered-Interview-Assistant repository.

The POST handler of /api/vapi-assistant is shallowly embedded below.  The
embedding follows the TypeScript source statement by statement:

  1. body parsing (`request.json().catch(() => du)` and destructuring),
  2. the optional x-vapi-secret shared-secret check,
  3. optional bearer-token verification with silent fallback,
  4. the model call (modelled as an oracle delivering the extracted text),
  5. strict JSON parsing of the model text with a string-splitting fallback,
  6. assembly of the interview record and the single collection insert,
  7. the response, with the top-level try/catch mapped to 500 responses.

External collaborators (the JS JSON.parse builtin, firebase verifyIdToken,
the generateText provider, the Firestore add, the cover picker and clock)
are modelled as oracles or as faithful re-implementations of the exact
JS semantics the handler relies on.
-/

namespace Vapi

/-! ### Character classes

`isWs` models the JS regex class \s and String.trim whitespace for the
characters that can actually occur here; the rarely used Unicode space
code points beyond the ones listed are omitted (no behaviour relevant to
the handler depends on them). -/

def isWs (c : Char) : Bool :=
  c = ' ' || c = '\t' || c = '\n' || c = '\r' || c = '\x0b' || c = '\x0c' ||
  c = ' ' || c = Char.ofNat 0x2028 || c = Char.ofNat 0x2029 || c = Char.ofNat 0xFEFF

def isDigit (c : Char) : Bool :=
  '0' ≤ c && c ≤ '9'

/-- JSON-grammar whitespace (JSON.parse skips exactly these). -/
def isJsonWs (c : Char) : Bool :=
  c = ' ' || c = '\t' || c = '\n' || c = '\r'

/-! ### JS JSON values

`JsVal` is the result type of the JSON.parse builtin: null, booleans,
numbers, strings, arrays and objects.  Numbers keep their source lexeme;
the JS re-formatting of a parsed float by String() is approximated by that
lexeme (no claim exercises non-string elements). -/

inductive JsVal where
  | null
  | bool (b : Bool)
  | num (lex : String)
  | str (s : String)
  | arr (elems : List JsVal)
  | obj (fields : List (String × JsVal))

/-- Later duplicate keys win in JSON.parse, hence lookup of the last binding. -/
def lookupLast (fs : List (String × JsVal)) (k : String) : Option JsVal :=
  match fs with
  | [] => none
  | (k2, v) :: rest =>
    match lookupLast rest k with
    | some r => some r
    | none => if k2 = k then some v else none

/-- JS property access `v[k]` as used by the handler: only objects carry the
looked-up fields; on every other value the access yields undefined. -/
def getField (v : JsVal) (k : String) : Option JsVal :=
  match v with
  | .obj fs => lookupLast fs k
  | _ => none

/-- JS truthiness of a parsed JSON value. -/
def jsTruthy : JsVal → Bool
  | .null => false
  | .bool b => b
  | .num lex =>
    -- a JSON number is zero exactly when every mantissa digit is 0
    !((lex.data.takeWhile (fun c => !(c = 'e' || c = 'E'))).all
        (fun c => c = '0' || c = '.' || c = '-'))
  | .str s => s ≠ ""
  | .arr _ => true
  | .obj _ => true

/-! ### A faithful re-implementation of JSON.parse

Recursive descent over the JSON grammar; the fuel argument only bounds the
value-nesting recursion and is always supplied large enough. -/

/-- String body after the opening quote: returns the decoded characters and
the input remaining after the closing quote.  Unescaped control characters
and bad escapes make JSON.parse throw, hence `none`.  Surrogate pairing of
two adjacent \u escapes is not re-joined (no claim touches it). -/
def parseStringBody : List Char → Option (List Char × List Char)
  | [] => none
  | '"' :: rest => some ([], rest)
  | '\\' :: 'u' :: a :: b :: c :: d :: rest =>
    match hexVal a, hexVal b, hexVal c, hexVal d with
    | some x1, some x2, some x3, some x4 =>
      match parseStringBody rest with
      | some (cs, r) => some (Char.ofNat (((x1 * 16 + x2) * 16 + x3) * 16 + x4) :: cs, r)
      | none => none
    | _, _, _, _ => none
  | '\\' :: e :: rest =>
    match escChar e with
    | some c =>
      match parseStringBody rest with
      | some (cs, r) => some (c :: cs, r)
      | none => none
    | none => none
  | c :: rest =>
    if c.toNat < 32 then none
    else
      match parseStringBody rest with
      | some (cs, r) => some (c :: cs, r)
      | none => none
where
  hexVal (c : Char) : Option Nat :=
    if '0' ≤ c ∧ c ≤ '9' then some (c.toNat - 48)
    else if 'a' ≤ c ∧ c ≤ 'f' then some (c.toNat - 87)
    else if 'A' ≤ c ∧ c ≤ 'F' then some (c.toNat - 55)
    else none
  escChar (e : Char) : Option Char :=
    if e = '"' then some '"'
    else if e = '\\' then some '\\'
    else if e = '/' then some '/'
    else if e = 'b' then some '\x08'
    else if e = 'f' then some '\x0c'
    else if e = 'n' then some '\n'
    else if e = 'r' then some '\r'
    else if e = 't' then some '\t'
    else none

/-- Integer part of a JSON number: 0, or a nonzero digit followed by digits. -/
def parseIntPart (l : List Char) : Option (List Char × List Char) :=
  match l with
  | '0' :: r => some (['0'], r)
  | _ =>
    let ds := l.takeWhile isDigit
    if ds = [] then none else some (ds, l.dropWhile isDigit)

/-- Optional fraction part; a lone decimal point is a JSON syntax error. -/
def parseFracPart (l : List Char) : Option (List Char × List Char) :=
  match l with
  | '.' :: r =>
    let ds := r.takeWhile isDigit
    if ds = [] then none else some ('.' :: ds, r.dropWhile isDigit)
  | _ => some ([], l)

/-- Optional exponent part. -/
def parseExpPart (l : List Char) : Option (List Char × List Char) :=
  match l with
  | e :: r =>
    if e = 'e' ∨ e = 'E' then
      match r with
      | s :: r2 =>
        if s = '+' ∨ s = '-' then
          let ds := r2.takeWhile isDigit
          if ds = [] then none else some (e :: s :: ds, r2.dropWhile isDigit)
        else
          let ds := r.takeWhile isDigit
          if ds = [] then none else some (e :: ds, r.dropWhile isDigit)
      | [] => none
    else some ([], l)
  | [] => some ([], l)

/-- A JSON number token: lexeme and remaining input. -/
def parseNum (l : List Char) : Option (List Char × List Char) :=
  let (sign, l1) := match l with
    | '-' :: r => (['-'], r)
    | _ => (([] : List Char), l)
  match parseIntPart l1 with
  | none => none
  | some (ip, l2) =>
    match parseFracPart l2 with
    | none => none
    | some (fp, l3) =>
      match parseExpPart l3 with
      | none => none
      | some (ep, l4) => some (sign ++ ip ++ fp ++ ep, l4)

def lbrace : Char := Char.ofNat 123
def rbrace : Char := Char.ofNat 125

mutual

/-- One JSON value (leading whitespace skipped), returning the rest. -/
def parseVal : Nat → List Char → Option (JsVal × List Char)
  | 0, _ => none
  | Nat.succ fuel, l =>
    match l.dropWhile isJsonWs with
    | 'n' :: 'u' :: 'l' :: 'l' :: rest => some (.null, rest)
    | 't' :: 'r' :: 'u' :: 'e' :: rest => some (.bool true, rest)
    | 'f' :: 'a' :: 'l' :: 's' :: 'e' :: rest => some (.bool false, rest)
    | '"' :: rest =>
      match parseStringBody rest with
      | some (cs, rest2) => some (.str (String.mk cs), rest2)
      | none => none
    | '[' :: rest =>
      match parseArrItems fuel rest with
      | some (vs, rest2) => some (.arr vs, rest2)
      | none => none
    | c :: rest =>
      if c = lbrace then
        match parseObjItems fuel rest with
        | some (fs, rest2) => some (.obj fs, rest2)
        | none => none
      else
        match parseNum (c :: rest) with
        | some (lex, rest2) => some (.num (String.mk lex), rest2)
        | none => none
    | [] => none

/-- Array items right after the opening bracket. -/
def parseArrItems : Nat → List Char → Option (List JsVal × List Char)
  | 0, _ => none
  | Nat.succ fuel, l =>
    match l.dropWhile isJsonWs with
    | ']' :: rest => some ([], rest)
    | _ =>
      match parseVal fuel l with
      | some (v, rest) =>
        match parseArrTail fuel rest with
        | some (vs, rest2) => some (v :: vs, rest2)
        | none => none
      | none => none

/-- Continuation of an array after a parsed item: comma or close. -/
def parseArrTail : Nat → List Char → Option (List JsVal × List Char)
  | 0, _ => none
  | Nat.succ fuel, l =>
    match l.dropWhile isJsonWs with
    | ']' :: rest => some ([], rest)
    | ',' :: rest =>
      match parseVal fuel rest with
      | some (v, rest2) =>
        match parseArrTail fuel rest2 with
        | some (vs, rest3) => some (v :: vs, rest3)
        | none => none
      | none => none
    | _ => none

/-- Object members right after the opening brace. -/
def parseObjItems : Nat → List Char → Option (List (String × JsVal) × List Char)
  | 0, _ => none
  | Nat.succ fuel, l =>
    match l.dropWhile isJsonWs with
    | c :: rest =>
      if c = rbrace then some ([], rest)
      else if c = '"' then
        match parseMember fuel rest with
        | some (kv, rest2) =>
          match parseObjTail fuel rest2 with
          | some (fs, rest3) => some (kv :: fs, rest3)
          | none => none
        | none => none
      else none
    | [] => none

/-- One key/value member, the key quote already consumed. -/
def parseMember : Nat → List Char → Option ((String × JsVal) × List Char)
  | 0, _ => none
  | Nat.succ fuel, l =>
    match parseStringBody l with
    | some (ks, rest) =>
      match rest.dropWhile isJsonWs with
      | ':' :: rest2 =>
        match parseVal fuel rest2 with
        | some (v, rest3) => some ((String.mk ks, v), rest3)
        | none => none
      | _ => none
    | none => none

/-- Continuation of an object after a parsed member: comma or close. -/
def parseObjTail : Nat → List Char → Option (List (String × JsVal) × List Char)
  | 0, _ => none
  | Nat.succ fuel, l =>
    match l.dropWhile isJsonWs with
    | c :: rest =>
      if c = rbrace then some ([], rest)
      else if c = ',' then
        match rest.dropWhile isJsonWs with
        | q :: rest2 =>
          if q = '"' then
            match parseMember fuel rest2 with
            | some (kv, rest3) =>
              match parseObjTail fuel rest3 with
              | some (fs, rest4) => some (kv :: fs, rest4)
              | none => none
            | none => none
          else none
        | [] => none
      else none
    | [] => none

end

/-- JSON.parse: one value, then only whitespace may remain. -/
def jsonParse (s : String) : Option JsVal :=
  match parseVal (2 * s.data.length + 2) s.data with
  | some (v, rest) => if rest.dropWhile isJsonWs = [] then some v else none
  | none => none

/-! ### JS String() coercion and trim -/

mutual

/-- JS String(v) for a parsed JSON value.  Arrays stringify by joining the
elements with commas, null elements joining as the empty string; objects
stringify as the usual object tag. -/
def jsToString : JsVal → String
  | .null => "null"
  | .bool true => "true"
  | .bool false => "false"
  | .num lex => lex
  | .str s => s
  | .arr xs => jsArrToString xs
  | .obj _ => "[object Object]"

def jsArrToString : List JsVal → String
  | [] => ""
  | [x] =>
    (match x with
     | .null => ""
     | v => jsToString v)
  | x :: xs =>
    (match x with
     | .null => ""
     | v => jsToString v) ++ "," ++ jsArrToString xs

end

/-- Drop the maximal run of class-p characters at both ends; this is what
the JS global replace of the anchored pattern p-run-at-start or p-run-at-end
by the empty string leaves behind. -/
def dropEdges (p : Char → Bool) (l : List Char) : List Char :=
  ((l.dropWhile p).reverse.dropWhile p).reverse

/-- JS String.prototype.trim. -/
def jsTrim (s : String) : String :=
  String.mk (dropEdges isWs s.data)

/-! ### The strict parse path

Source lines 84 to 93: JSON.parse the blob, accept a top-level array or an
object whose questions field is an array, coerce every element with
String(q).trim() and drop the falsy (empty) ones.  `none` stands for every
path that throws into the catch block and thereby engages the fallback. -/

def coerceQs (xs : List JsVal) : List String :=
  (xs.map (fun q => jsTrim (jsToString q))).filter (fun s => decide (s ≠ ""))

def strictParse (t : String) : Option (List String) :=
  match jsonParse t with
  | none => none
  | some parsed =>
    match parsed with
    | .arr xs => some (coerceQs xs)
    | _ =>
      if jsTruthy parsed then
        match getField parsed "questions" with
        | some q =>
          if jsTruthy q then
            match q with
            | .arr qs => some (coerceQs qs)
            | _ => none
          else none
        | none => none
      else none

/-! ### The fallback parse path

Source lines 94 to 103.  The separator regex has five alternatives:
newline, three quote-comma-quote variants, and a bare comma with optional
surrounding whitespace.  A JS split scans left to right for the first
position where one of the alternatives matches (tried in order), emits the
piece before it, and continues after the match; none of the alternatives
can match the empty string. -/

/-- Greedy \s* : length of the whitespace run and the remaining input. -/
def spanWs : List Char → Nat × List Char
  | [] => (0, [])
  | c :: r =>
    if isWs c then ((spanWs r).1 + 1, (spanWs r).2)
    else (0, c :: r)

/-- Alternative 1: \r?\n. -/
def matchNl : List Char → Option Nat
  | '\r' :: '\n' :: _ => some 2
  | '\n' :: _ => some 1
  | _ => none

/-- Alternative 2: quote \s* comma \s* quote. -/
def matchQcq (l : List Char) : Option Nat :=
  match l with
  | '"' :: r =>
    match spanWs r with
    | (n1, ',' :: r2) =>
      match spanWs r2 with
      | (n2, '"' :: _) => some (n1 + n2 + 3)
      | _ => none
    | _ => none
  | _ => none

/-- Alternative 3: quote comma \s* quote. -/
def matchQcq2 (l : List Char) : Option Nat :=
  match l with
  | '"' :: ',' :: r =>
    match spanWs r with
    | (n, '"' :: _) => some (n + 3)
    | _ => none
  | _ => none

/-- Alternative 4: quote \s* comma \s*. -/
def matchQc (l : List Char) : Option Nat :=
  match l with
  | '"' :: r =>
    match spanWs r with
    | (n1, ',' :: r2) => some (n1 + (spanWs r2).1 + 2)
    | _ => none
  | _ => none

/-- Alternative 5: \s* comma \s*. -/
def matchComma (l : List Char) : Option Nat :=
  match spanWs l with
  | (n1, ',' :: r2) => some (n1 + (spanWs r2).1 + 1)
  | _ => none

/-- Ordered-alternation combinator of the regex. -/
def orE (a b : Option Nat) : Option Nat :=
  match a with
  | some n => some n
  | none => b

/-- Length of the separator match starting at the current position, the
five alternatives tried in regex order. -/
def sepMatch (l : List Char) : Option Nat :=
  orE (matchNl l) (orE (matchQcq l) (orE (matchQcq2 l) (orE (matchQc l) (matchComma l))))

/-- The split scan.  Every separator match consumes at least one character,
so fuel equal to the input length always suffices; the fuel-exhausted case
is unreachable.  On a match of length n at c :: rest the input remaining is
rest dropped by n - 1, i.e. the whole input dropped by n. -/
def splitGo : Nat → List Char → List Char → List (List Char)
  | _, [], acc => [acc.reverse]
  | 0, s, acc => [acc.reverse ++ s]
  | Nat.succ fuel, c :: rest, acc =>
    match sepMatch (c :: rest) with
    | some n => acc.reverse :: splitGo fuel (rest.drop (n - 1)) []
    | none => splitGo fuel rest (c :: acc)

def splitOnSeps (s : List Char) : List (List Char) :=
  splitGo s.length s []

/-- Edge class of the first fallback replace: whitespace, brackets, quote. -/
def isEdge1 (c : Char) : Bool :=
  isWs c || c = '[' || c = ']' || c = '"'

/-- Edge class of the per-piece replace: quote, apostrophe, whitespace. -/
def isEdge2 (c : Char) : Bool :=
  c = '"' || c = Char.ofNat 39 || isWs c

/-- Punctuation allowed after the leading number: parenthesis, dot,
whitespace, dash. -/
def isNumPunct (c : Char) : Bool :=
  c = ')' || c = '.' || isWs c || c = '-'

/-- First per-piece replace: digits then at least one punctuation class
character at the very start are removed, otherwise the piece is unchanged. -/
def stripNumbering (l : List Char) : List Char :=
  let ds := l.takeWhile isDigit
  if ds = [] then l
  else
    let rest := l.dropWhile isDigit
    let punct := rest.takeWhile isNumPunct
    if punct = [] then l
    else rest.dropWhile isNumPunct

/-- The map body applied to each split piece: strip the leading numbering,
strip quote/apostrophe/whitespace runs at both ends, then trim. -/
def cleanPiece (l : List Char) : List Char :=
  dropEdges isWs (dropEdges isEdge2 (stripNumbering l))

/-- Array.from(new Set(xs)): first occurrences in insertion order. -/
def dedupGo (seen : List (List Char)) : List (List Char) → List (List Char)
  | [] => []
  | x :: xs =>
    if x ∈ seen then dedupGo seen xs
    else x :: dedupGo (x :: seen) xs

def dedupFirst (l : List (List Char)) : List (List Char) :=
  dedupGo [] l

/-- The whole fallback path of the catch block. -/
def fallbackParse (t : String) : List String :=
  (dedupFirst
    (((splitOnSeps (dropEdges isEdge1 t.data)).map cleanPiece).filter
      (fun l => decide (l ≠ [])))).map String.mk

/-- Lines 84 to 103: strict parse, falling back to the splitting heuristic
whenever the strict path throws. -/
def parseQuestions (t : String) : List String :=
  match strictParse t with
  | some qs => qs
  | none => fallbackParse t

/-- Lines 82 to 104: questionsArray stays empty unless questionsText is a
truthy (non-empty) string. -/
def questionsFromText (qt : Option String) : List String :=
  match qt with
  | some t => if t ≠ "" then parseQuestions t else []
  | none => []

/-! ### The POST handler -/

/-- The per-request world the handler runs in: the VAPI_SECRET environment
value (none when unset), the firebase verifyIdToken collaborator (none when
the returned promise rejects, some uid when it resolves with decoded.uid),
the generateText call together with the step-4 text extraction (error when
generateText throws, otherwise the extracted questionsText, none standing
for undefined), the Firestore add (some message when it throws), the random
cover picker and the clock. -/
structure Ctx where
  vapiSecret : Option String
  verifyIdToken : String → Option String
  llm : Except String (Option String)
  dbAdd : Option String
  cover : String
  nowIso : String

/-- One incoming request: the result of request.json() (none when the
promise rejects, which the catch turns into the empty object) and the two
headers the handler reads (none when headers.get returns null). -/
structure Req where
  bodyJson : Option JsVal
  xVapiSecret : Option String
  authorization : Option String

/-- The destructured body fields the handler uses after line 11 (amount
only feeds the prompt and is not stored). -/
structure Fields where
  ftype : Option JsVal
  frole : Option JsVal
  flevel : Option JsVal
  ftechstack : Option JsVal
  fuserid : Option JsVal

def fieldsOf (body : JsVal) : Fields :=
  ⟨getField body "type", getField body "role", getField body "level",
   getField body "techstack", getField body "userid"⟩

/-- The document handed to db.collection(interviews).add. -/
structure Interview where
  role : Option JsVal
  type : Option JsVal
  level : Option JsVal
  techstack : List String
  questions : List String
  userId : Option JsVal
  finalized : Bool
  coverImage : String
  createdAt : String

/-- Response bodies the handler produces. -/
inductive RBody where
  | okBody
  | errBody (msg : String)

structure Resp where
  status : Nat
  body : RBody

/-- Either a response, or an exception that escaped the handler (only the
destructuring of a null body sits outside the try/catch). -/
inductive HandlerResult where
  | response (r : Resp)
  | thrown

/-- Lines 16 to 22: with a truthy VAPI_SECRET, reject when the header value
is empty (headers.get returned null or the empty string) or differs. -/
def secretRejects (sec : Option String) (hdr : String) : Bool :=
  match sec with
  | none => false
  | some s =>
    if s ≠ "" then (if hdr = "" ∨ hdr ≠ s then true else false)
    else false

/-- A character the JS dot can match (everything but the four line
terminators, the regex having no dotall flag). -/
def dotOk (c : Char) : Bool :=
  !(c = '\n' || c = '\r' || c = Char.ofNat 0x2028 || c = Char.ofNat 0x2029)

/-- The anchored match of Bearer-space-capture on the authorization header
value: the literal prefix, then at least one dot-matchable character up to
the very end. -/
def bearerToken (h : String) : Option String :=
  match h.data with
  | 'B' :: 'e' :: 'a' :: 'r' :: 'e' :: 'r' :: ' ' :: rest =>
    if rest ≠ [] ∧ rest.all dotOk then some (String.mk rest) else none
  | _ => none

/-- Lines 26 to 40: resolvedUserId starts as the body userid; with a
matching bearer header and a verification that resolves with a truthy uid
it becomes that uid; a rejected verification is logged and falls through. -/
def resolveUserId (verify : String → Option String) (auth : Option String)
    (userid : Option JsVal) : Option JsVal :=
  match bearerToken (auth.getD "") with
  | some idToken =>
    match verify idToken with
    | some uid => if uid ≠ "" then some (.str uid) else userid
    | none => userid
  | none => userid

/-- JS String.prototype.split on a single-character separator: every
occurrence splits, empty pieces kept. -/
def splitOnChar (sep : Char) : List Char → List (List Char)
  | [] => [[]]
  | c :: rest =>
    if c = sep then [] :: splitOnChar sep rest
    else
      match splitOnChar sep rest with
      | p :: ps => (c :: p) :: ps
      | [] => [[c]]

/-- Line 116: a string techstack splits on commas, an array is kept, any
other value becomes the empty list; every element then gets String().trim(). -/
def techstackOf (ts : Option JsVal) : List String :=
  match ts with
  | some (.str s) => (splitOnChar ',' s.data).map (fun p => jsTrim (String.mk p))
  | some (.arr xs) => xs.map (fun x => jsTrim (jsToString x))
  | _ => []

/-- Lines 43 to 128: everything after the auth steps.  A generateText throw
and a db.add throw are caught by the top-level catch and become 500
responses carrying the stringified error. -/
def handleParsed (ctx : Ctx) (f : Fields) (resolvedUserId : Option JsVal) :
    HandlerResult × Option Interview :=
  match ctx.llm with
  | .error e => (.response ⟨500, .errBody e⟩, none)
  | .ok questionsText =>
    let questionsArray := questionsFromText questionsText
    if questionsArray = [] then
      (.response ⟨502, .errBody "LLM did not return questions"⟩, none)
    else
      match ctx.dbAdd with
      | some e => (.response ⟨500, .errBody e⟩, none)
      | none =>
        (.response ⟨200, .okBody⟩, some {
          role := f.frole
          type := f.ftype
          level := f.flevel
          techstack := techstackOf f.ftechstack
          questions := questionsArray
          userId := resolvedUserId
          finalized := true
          coverImage := ctx.cover
          createdAt := ctx.nowIso })

/-- The try block, lines 13 to 128, for a non-null body. -/
def POSTbody (ctx : Ctx) (req : Req) (body : JsVal) :
    HandlerResult × Option Interview :=
  let f := fieldsOf body
  let vapiSecretHeader := req.xVapiSecret.getD ""
  if secretRejects ctx.vapiSecret vapiSecretHeader then
    (.response ⟨401, .errBody "Unauthorized VAPI request"⟩, none)
  else
    handleParsed ctx f (resolveUserId ctx.verifyIdToken req.authorization f.fuserid)

/-- The whole POST handler.  A rejected request.json() coerces to the empty
object; destructuring a null body throws a TypeError outside the try/catch
and so escapes the handler.  The second component is the document written
to the interviews collection, none when nothing was persisted. -/
def POST (ctx : Ctx) (req : Req) : HandlerResult × Option Interview :=
  match req.bodyJson.getD (.obj []) with
  | .null => (.thrown, none)
  | body => POSTbody ctx req body

/-! ### Concrete worlds and requests used to instantiate the theorems -/

def ctxC1 : Ctx := ⟨none, fun _ => none, .ok (some "[]"), none, "cover1", "now1"⟩

def reqC1 : Req := ⟨some (.obj []), none, none⟩

def ctxC2 : Ctx :=
  ⟨none, fun t => if t = "tok1" then some "u1" else none, .ok (some "[\"Q\"]"),
   none, "cover2", "now2"⟩

def reqC2 : Req := ⟨some (.obj [("userid", .str "bodyUser")]), none, some "Bearer tok1"⟩

def recC2 : Interview :=
  ⟨none, none, none, [], ["Q"], some (.str "u1"), true, "cover2", "now2"⟩

def ctxC3 : Ctx := ⟨none, fun _ => none, .ok (some "[\"Q\"]"), none, "cover3", "now3"⟩

def reqC3 : Req := ⟨some (.obj [("userid", .str "bodyUser")]), none, some "Bearer badTok"⟩

def ctxC4 : Ctx := ⟨some "sek", fun _ => none, .ok (some "[\"Q\"]"), none, "cover4", "now4"⟩

def reqC4 : Req := ⟨some .null, none, none⟩

def reqC4w : Req := ⟨some (.obj []), some "wrong", none⟩

def ctxC8 : Ctx := ⟨none, fun _ => none, .ok (some "[\"A\"]"), none, "cover8", "now8"⟩

def reqC8 : Req := ⟨some (.obj []), none, none⟩

def recC8 : Interview := ⟨none, none, none, [], ["A"], none, true, "cover8", "now8"⟩

def ctxC9 : Ctx := ⟨none, fun _ => none, .ok (some "[\"A\"]"), none, "cover9", "now9"⟩

def reqC9 : Req := ⟨some .null, none, none⟩

def reqC9w : Req := ⟨some (.obj []), none, none⟩

def ctxC10 : Ctx := ⟨some "", fun _ => none, .ok (some "[\"A\"]"), none, "cover10", "now10"⟩

def reqC10 : Req := ⟨some (.obj []), some "whatever", none⟩

/-! ### Helper lemmas about the edge stripping -/

theorem head?_dropWhile_false {α} (p : α → Bool) :
    ∀ (l : List α) (c : α), (l.dropWhile p).head? = some c → p c = false := by
  intro l
  induction l with
  | nil => intro c h; simp [List.dropWhile] at h
  | cons a t ih =>
    intro c h
    by_cases hp : p a
    · rw [List.dropWhile_cons_of_pos hp] at h
      exact ih c h
    · rw [List.dropWhile_cons_of_neg hp] at h
      simp only [List.head?_cons, Option.some.injEq] at h
      subst h
      simpa using hp

theorem getLast?_dropWhile {α} (p : α → Bool) (l : List α) (c : α)
    (h : (l.dropWhile p).getLast? = some c) : l.getLast? = some c := by
  have hsplit := List.takeWhile_append_dropWhile (p := p) (l := l)
  calc l.getLast? = (l.takeWhile p ++ l.dropWhile p).getLast? := by rw [hsplit]
    _ = ((l.dropWhile p).getLast?).or ((l.takeWhile p).getLast?) := List.getLast?_append
    _ = some c := by rw [h]; rfl

theorem dropEdges_head_false (p : Char → Bool) (l : List Char) (c : Char)
    (h : (dropEdges p l).head? = some c) : p c = false := by
  unfold dropEdges at h
  rw [List.head?_reverse] at h
  have h2 := getLast?_dropWhile p (l.dropWhile p).reverse c h
  rw [List.getLast?_reverse] at h2
  exact head?_dropWhile_false p l c h2

theorem dropEdges_getLast_false (p : Char → Bool) (l : List Char) (c : Char)
    (h : (dropEdges p l).getLast? = some c) : p c = false := by
  unfold dropEdges at h
  rw [List.getLast?_reverse] at h
  exact head?_dropWhile_false p _ c h

theorem mem_dropEdges (p : Char → Bool) (l : List Char) (a : Char)
    (h : a ∈ dropEdges p l) : a ∈ l := by
  unfold dropEdges at h
  rw [List.mem_reverse] at h
  have h2 := (List.dropWhile_sublist p).subset h
  rw [List.mem_reverse] at h2
  exact (List.dropWhile_sublist p).subset h2

theorem mem_stripNumbering (l : List Char) (a : Char)
    (h : a ∈ stripNumbering l) : a ∈ l := by
  unfold stripNumbering at h
  dsimp only at h
  split at h
  · exact h
  · split at h
    · exact h
    · exact (List.dropWhile_sublist isDigit).subset
        ((List.dropWhile_sublist isNumPunct).subset h)

theorem mem_cleanPiece (l : List Char) (a : Char)
    (h : a ∈ cleanPiece l) : a ∈ l := by
  unfold cleanPiece at h
  exact mem_stripNumbering l a (mem_dropEdges isEdge2 _ a (mem_dropEdges isWs _ a h))

theorem mem_dedupGo (x : List Char) :
    ∀ (l seen : List (List Char)), x ∈ dedupGo seen l → x ∈ l := by
  intro l
  induction l with
  | nil => intro seen h; simp [dedupGo] at h
  | cons y ys ih =>
    intro seen h
    unfold dedupGo at h
    split at h
    · exact List.mem_cons_of_mem y (ih seen h)
    · rcases List.mem_cons.mp h with h1 | h2
      · exact h1 ▸ List.mem_cons_self x ys
      · exact List.mem_cons_of_mem y (ih (y :: seen) h2)

/-! ### Helper lemmas about the separator scan -/

theorem spanWs_not_ws (c : Char) (r : List Char) (h : isWs c = false) :
    spanWs (c :: r) = (0, c :: r) := by
  simp [spanWs, h]

theorem orE_eq_none (a b : Option Nat) : orE a b = none ↔ a = none ∧ b = none := by
  cases a <;> simp [orE]

theorem sepMatch_none_not_sep (c : Char) (rest : List Char)
    (h : sepMatch (c :: rest) = none) : c ≠ ',' ∧ c ≠ '\n' := by
  unfold sepMatch at h
  rw [orE_eq_none, orE_eq_none, orE_eq_none, orE_eq_none] at h
  obtain ⟨hnl, _, _, _, hcm⟩ := h
  constructor
  · rintro rfl
    rw [show matchComma (',' :: rest) = some (0 + (spanWs rest).1 + 1) from by
      unfold matchComma
      rw [spanWs_not_ws ',' rest (by decide)]
      rfl] at hcm
    exact Option.noConfusion hcm
  · rintro rfl
    rw [show matchNl ('\n' :: rest) = some 1 from rfl] at hnl
    exact Option.noConfusion hnl

theorem splitGo_sep_free :
    ∀ (fuel : Nat) (s acc : List Char), s.length ≤ fuel →
      (∀ c ∈ acc, c ≠ ',' ∧ c ≠ '\n') →
      ∀ p ∈ splitGo fuel s acc, ∀ c ∈ p, c ≠ ',' ∧ c ≠ '\n' := by
  intro fuel
  induction fuel with
  | zero =>
    intro s acc hlen hacc p hp c hc
    have hs : s = [] := List.length_eq_zero.mp (Nat.le_zero.mp hlen)
    subst hs
    simp only [splitGo, List.mem_singleton] at hp
    subst hp
    exact hacc c (List.mem_reverse.mp hc)
  | succ fuel ih =>
    intro s acc hlen hacc p hp c hc
    cases s with
    | nil =>
      simp only [splitGo, List.mem_singleton] at hp
      subst hp
      exact hacc c (List.mem_reverse.mp hc)
    | cons a rest =>
      rw [show splitGo (fuel + 1) (a :: rest) acc =
        (match sepMatch (a :: rest) with
         | some n => acc.reverse :: splitGo fuel (rest.drop (n - 1)) []
         | none => splitGo fuel rest (a :: acc)) from rfl] at hp
      have hlen2 : rest.length ≤ fuel := Nat.le_of_succ_le_succ hlen
      cases hm : sepMatch (a :: rest) with
      | some n =>
        rw [hm] at hp
        rcases List.mem_cons.mp hp with h1 | h2
        · subst h1
          exact hacc c (List.mem_reverse.mp hc)
        · have hd : (rest.drop (n - 1)).length ≤ fuel := by
            rw [List.length_drop]
            exact Nat.le_trans (Nat.sub_le _ _) hlen2
          exact ih (rest.drop (n - 1)) [] hd (by intro x hx; simp at hx) p h2 c hc
      | none =>
        rw [hm] at hp
        have hacc2 : ∀ x ∈ a :: acc, x ≠ ',' ∧ x ≠ '\n' := by
          intro x hx
          rcases List.mem_cons.mp hx with h1 | h2
          · exact h1 ▸ sepMatch_none_not_sep a rest hm
          · exact hacc x h2
        exact ih rest (a :: acc) hlen2 hacc2 p hp c hc

/-! ### Element properties of the parsed question lists -/

/-- Absence of leading and trailing whitespace, i.e. trim leaves the string
unchanged. -/
def noWsEdges (q : String) : Prop :=
  (∀ c, q.data.head? = some c → isWs c = false) ∧
  (∀ c, q.data.getLast? = some c → isWs c = false)

theorem strictParse_shape (t : String) (qs : List String)
    (h : strictParse t = some qs) : ∃ xs, qs = coerceQs xs := by
  unfold strictParse at h
  split at h
  · exact Option.noConfusion h
  · split at h
    · exact ⟨_, (Option.some.injEq _ _ ▸ h).symm⟩
    · split at h
      · split at h
        · split at h
          · split at h
            · exact ⟨_, (Option.some.injEq _ _ ▸ h).symm⟩
            · exact Option.noConfusion h
          · exact Option.noConfusion h
        · exact Option.noConfusion h
      · exact Option.noConfusion h

theorem coerceQs_elem (xs : List JsVal) (q : String) (hq : q ∈ coerceQs xs) :
    q ≠ "" ∧ noWsEdges q := by
  unfold coerceQs at hq
  obtain ⟨hmem, hne⟩ := List.mem_filter.mp hq
  obtain ⟨y, _, hy⟩ := List.mem_map.mp hmem
  have hdata : q.data = dropEdges isWs (jsToString y).data := by
    rw [← hy]; rfl
  refine ⟨by simpa using hne, ?_, ?_⟩
  · intro c hc
    rw [hdata] at hc
    exact dropEdges_head_false isWs _ c hc
  · intro c hc
    rw [hdata] at hc
    exact dropEdges_getLast_false isWs _ c hc

theorem fallbackParse_elem (t : String) (q : String) (hq : q ∈ fallbackParse t) :
    q ≠ "" ∧ noWsEdges q := by
  unfold fallbackParse at hq
  obtain ⟨l, hl, hlq⟩ := List.mem_map.mp hq
  obtain ⟨hmem, hne⟩ := List.mem_filter.mp (mem_dedupGo l _ [] hl)
  obtain ⟨piece, _, hpiece⟩ := List.mem_map.mp hmem
  have hdata : q.data = l := by rw [← hlq]
  have hcp : q.data = dropEdges isWs (dropEdges isEdge2 (stripNumbering piece)) := by
    rw [hdata, ← hpiece]; rfl
  refine ⟨?_, ?_, ?_⟩
  · intro hq0
    apply of_decide_eq_true hne
    rw [← hdata, hq0]
  · intro c hc
    rw [hcp] at hc
    exact dropEdges_head_false isWs _ c hc
  · intro c hc
    rw [hcp] at hc
    exact dropEdges_getLast_false isWs _ c hc

theorem parseQuestions_elem (t : String) (q : String) (hq : q ∈ parseQuestions t) :
    q ≠ "" ∧ noWsEdges q := by
  unfold parseQuestions at hq
  cases hs : strictParse t with
  | some qs =>
    rw [hs] at hq
    obtain ⟨xs, hxs⟩ := strictParse_shape t qs hs
    exact coerceQs_elem xs q (hxs ▸ hq)
  | none =>
    rw [hs] at hq
    exact fallbackParse_elem t q hq

theorem questionsFromText_elem (qt : Option String) (q : String)
    (hq : q ∈ questionsFromText qt) : q ≠ "" ∧ noWsEdges q := by
  cases qt with
  | none => simp [questionsFromText] at hq
  | some t =>
    by_cases ht : t = ""
    · simp [questionsFromText, ht] at hq
    · have heq : questionsFromText (some t) = parseQuestions t := by
        simp [questionsFromText, ht]
      rw [heq] at hq
      exact parseQuestions_elem t q hq

/-- Every question kept by the fallback path is free of commas and
newlines: each of the five separator alternatives consumes any comma or
newline it scans over. -/
theorem fallbackParse_sep_free (t : String) (q : String) (hq : q ∈ fallbackParse t) :
    ',' ∉ q.data ∧ '\n' ∉ q.data := by
  unfold fallbackParse at hq
  obtain ⟨l, hl, hlq⟩ := List.mem_map.mp hq
  obtain ⟨hmem, _⟩ := List.mem_filter.mp (mem_dedupGo l _ [] hl)
  obtain ⟨piece, hpc, hpiece⟩ := List.mem_map.mp hmem
  have hdata : q.data = l := by rw [← hlq]
  have hfree := splitGo_sep_free (dropEdges isEdge1 t.data).length
    (dropEdges isEdge1 t.data) [] (Nat.le_refl _) (by intro x hx; simp at hx)
    piece hpc
  constructor
  · intro hc
    rw [hdata, ← hpiece] at hc
    exact (hfree ',' (mem_cleanPiece piece ',' hc)).1 rfl
  · intro hc
    rw [hdata, ← hpiece] at hc
    exact (hfree '\n' (mem_cleanPiece piece '\n' hc)).2 rfl

/-! ### Trace lemmas for the handler -/

theorem resolveUserId_verified (verify : String → Option String) (auth : Option String)
    (userid : Option JsVal) (tok uid : String)
    (htok : bearerToken (auth.getD "") = some tok)
    (hv : verify tok = some uid) (hne : uid ≠ "") :
    resolveUserId verify auth userid = some (.str uid) := by
  unfold resolveUserId
  simp only [htok, hv]
  rw [if_pos hne]

theorem resolveUserId_rejected (verify : String → Option String) (auth : Option String)
    (userid : Option JsVal) (tok : String)
    (htok : bearerToken (auth.getD "") = some tok)
    (hv : verify tok = none) :
    resolveUserId verify auth userid = userid := by
  unfold resolveUserId
  simp only [htok, hv]

theorem resolveUserId_no_header (verify : String → Option String)
    (userid : Option JsVal) :
    resolveUserId verify none userid = userid := rfl

theorem handleParsed_second (ctx : Ctx) (f : Fields) (ru : Option JsVal)
    (rec : Interview) (h : (handleParsed ctx f ru).2 = some rec) :
    rec.userId = ru ∧ rec.finalized = true ∧ rec.questions ≠ [] ∧
      ∃ qt, ctx.llm = .ok qt ∧ rec.questions = questionsFromText qt := by
  unfold handleParsed at h
  cases hll : ctx.llm with
  | error e => rw [hll] at h; simp at h
  | ok qt =>
    rw [hll] at h
    dsimp only at h
    by_cases hq : questionsFromText qt = []
    · rw [if_pos hq] at h; simp at h
    · rw [if_neg hq] at h
      cases hdb : ctx.dbAdd with
      | some e => rw [hdb] at h; simp at h
      | none =>
        rw [hdb] at h
        simp only [Option.some.injEq] at h
        subst h
        exact ⟨rfl, rfl, hq, qt, rfl, rfl⟩

theorem handleParsed_not_thrown (ctx : Ctx) (f : Fields) (ru : Option JsVal) :
    (handleParsed ctx f ru).1 ≠ .thrown := by
  unfold handleParsed
  cases ctx.llm with
  | error e => exact fun h => nomatch h
  | ok qt =>
    dsimp only
    by_cases hq : questionsFromText qt = []
    · rw [if_pos hq]; exact fun h => nomatch h
    · rw [if_neg hq]
      cases ctx.dbAdd with
      | some e => exact fun h => nomatch h
      | none => exact fun h => nomatch h

theorem handleParsed_status_ne401 (ctx : Ctx) (f : Fields) (ru : Option JsVal)
    (r : Resp) (h : (handleParsed ctx f ru).1 = .response r) : r.status ≠ 401 := by
  unfold handleParsed at h
  cases hll : ctx.llm with
  | error e =>
    rw [hll] at h
    cases h
    simp
  | ok qt =>
    rw [hll] at h
    dsimp only at h
    by_cases hq : questionsFromText qt = []
    · rw [if_pos hq] at h
      cases h
      simp
    · rw [if_neg hq] at h
      cases hdb : ctx.dbAdd with
      | some e => rw [hdb] at h; cases h; simp
      | none => rw [hdb] at h; cases h; simp

theorem POSTbody_second (ctx : Ctx) (req : Req) (body : JsVal) (rec : Interview)
    (h : (POSTbody ctx req body).2 = some rec) :
    rec.userId = resolveUserId ctx.verifyIdToken req.authorization (fieldsOf body).fuserid ∧
    rec.finalized = true ∧ rec.questions ≠ [] ∧
      ∃ qt, ctx.llm = .ok qt ∧ rec.questions = questionsFromText qt := by
  unfold POSTbody at h
  dsimp only at h
  split at h
  · simp at h
  · exact handleParsed_second ctx (fieldsOf body) _ rec h

theorem POST_body_eq (ctx : Ctx) (req : Req)
    (hb : req.bodyJson.getD (.obj []) ≠ .null) :
    POST ctx req = POSTbody ctx req (req.bodyJson.getD (.obj [])) := by
  unfold POST
  cases hbv : req.bodyJson.getD (.obj []) with
  | null => exact absurd hbv hb
  | bool b => rfl
  | num lex => rfl
  | str s => rfl
  | arr xs => rfl
  | obj fs => rfl

theorem POST_second (ctx : Ctx) (req : Req) (rec : Interview)
    (h : (POST ctx req).2 = some rec) :
    rec.userId = resolveUserId ctx.verifyIdToken req.authorization
      (fieldsOf (req.bodyJson.getD (.obj []))).fuserid ∧
    rec.finalized = true ∧ rec.questions ≠ [] ∧
      ∃ qt, ctx.llm = .ok qt ∧ rec.questions = questionsFromText qt := by
  have hb : req.bodyJson.getD (.obj []) ≠ .null := by
    intro hn
    rw [show POST ctx req = (.thrown, none) from by unfold POST; rw [hn]] at h
    simp at h
  rw [POST_body_eq ctx req hb] at h
  exact POSTbody_second ctx req _ rec h

theorem POSTbody_ext (ctx : Ctx) (req1 req2 : Req) (body : JsVal)
    (hx : req1.xVapiSecret = req2.xVapiSecret)
    (hr : resolveUserId ctx.verifyIdToken req1.authorization (fieldsOf body).fuserid =
          resolveUserId ctx.verifyIdToken req2.authorization (fieldsOf body).fuserid) :
    POSTbody ctx req1 body = POSTbody ctx req2 body := by
  unfold POSTbody
  dsimp only
  rw [hx, hr]

/-! ### The claims -/

/-- C1: for every request that reaches the model (non-null body, shared
secret accepted), when the extracted model text yields zero usable
questions after both the strict JSON parse and the fallback parse, the
handler answers 502 with success false and the LLM-did-not-return-questions
error, and nothing is inserted into the interviews collection. -/
theorem C1_empty_questions_502 (ctx : Ctx) (req : Req) (t : String)
    (hb : req.bodyJson.getD (.obj []) ≠ .null)
    (hsec : secretRejects ctx.vapiSecret (req.xVapiSecret.getD "") = false)
    (hllm : ctx.llm = .ok (some t))
    (hq : parseQuestions t = []) :
    POST ctx req = (.response ⟨502, .errBody "LLM did not return questions"⟩, none) := by
  rw [POST_body_eq ctx req hb]
  unfold POSTbody
  dsimp only
  rw [if_neg (by rw [hsec]; exact Bool.false_ne_true)]
  unfold handleParsed
  rw [hllm]
  dsimp only
  have hqt : questionsFromText (some t) = [] := by
    by_cases ht : t = ""
    · simp [questionsFromText, ht]
    · simp [questionsFromText, ht, hq]
  rw [if_pos hqt]

/-- C1 witness: a concrete request whose model text is the empty JSON array. -/
theorem C1_witness :
    POST ctxC1 reqC1 = (.response ⟨502, .errBody "LLM did not return questions"⟩, none) :=
  C1_empty_questions_502 ctxC1 reqC1 "[]" (fun h => nomatch h) rfl rfl rfl

/-- C2: for every request carrying a bearer token that verifyIdToken
accepts, resolving the (always non-empty) subject uid, the persisted
record carries that uid as userId, whatever userid the body supplied. -/
theorem C2_verified_uid_wins (ctx : Ctx) (req : Req) (tok uid : String) (rec : Interview)
    (htok : bearerToken (req.authorization.getD "") = some tok)
    (hv : ctx.verifyIdToken tok = some uid)
    (hne : uid ≠ "")
    (hins : (POST ctx req).2 = some rec) :
    rec.userId = some (.str uid) := by
  obtain ⟨hu, _, _, _⟩ := POST_second ctx req rec hins
  rw [hu]
  exact resolveUserId_verified ctx.verifyIdToken req.authorization _ tok uid htok hv hne

/-- C2 witness: body says bodyUser, the verified token says u1, the stored
record says u1. -/
theorem C2_witness : recC2.userId = some (.str "u1") :=
  C2_verified_uid_wins ctxC2 reqC2 "tok1" "u1" recC2 rfl rfl (by decide) rfl

/-- C3: for every request carrying a bearer token whose verification is
rejected, the handler behaves exactly as if no Authorization header had
been sent, and any persisted record keeps the body-supplied userid. -/
theorem C3_rejected_token_graceful (ctx : Ctx) (req : Req) (tok : String)
    (htok : bearerToken (req.authorization.getD "") = some tok)
    (hv : ctx.verifyIdToken tok = none) :
    POST ctx req = POST ctx ⟨req.bodyJson, req.xVapiSecret, none⟩ ∧
    ∀ rec, (POST ctx req).2 = some rec →
      rec.userId = (fieldsOf (req.bodyJson.getD (.obj []))).fuserid := by
  constructor
  · by_cases hbn : req.bodyJson.getD (.obj []) = .null
    · have h1 : POST ctx req = (.thrown, none) := by unfold POST; rw [hbn]
      have h2 : POST ctx ⟨req.bodyJson, req.xVapiSecret, none⟩ = (.thrown, none) := by
        unfold POST
        rw [show (⟨req.bodyJson, req.xVapiSecret, none⟩ : Req).bodyJson.getD (.obj []) = .null from hbn]
      rw [h1, h2]
    · rw [POST_body_eq ctx req hbn, POST_body_eq ctx ⟨req.bodyJson, req.xVapiSecret, none⟩ hbn]
      refine POSTbody_ext ctx req _ _ rfl ?_
      rw [resolveUserId_rejected ctx.verifyIdToken req.authorization _ tok htok hv]
      exact (resolveUserId_no_header ctx.verifyIdToken _).symm
  · intro rec h
    obtain ⟨hu, _, _, _⟩ := POST_second ctx req rec h
    rw [hu]
    exact resolveUserId_rejected ctx.verifyIdToken req.authorization _ tok htok hv

/-- C3 witness: with a rejected token the whole outcome matches the
header-free request. -/
theorem C3_witness :
    POST ctxC3 reqC3 = POST ctxC3 ⟨reqC3.bodyJson, reqC3.xVapiSecret, none⟩ :=
  (C3_rejected_token_graceful ctxC3 reqC3 "badTok" rfl rfl).1

/-- C4 counterexample: VAPI_SECRET is configured and the x-vapi-secret
header is absent, yet a request whose body is JSON null does not produce
the 401 response: it throws at the destructuring, before the check. -/
theorem C4_counterexample :
    ctxC4.vapiSecret = some "sek" ∧ reqC4.xVapiSecret = none ∧
    POST ctxC4 reqC4 = (.thrown, none) ∧
    (POST ctxC4 reqC4).1 ≠ .response ⟨401, .errBody "Unauthorized VAPI request"⟩ :=
  ⟨rfl, rfl, rfl, fun h => nomatch h⟩

/-- C4 amended: for every request whose body JSON is not null (a null body
throws before any check), a configured non-empty VAPI_SECRET together with
an absent or mismatched x-vapi-secret header yields the 401 response with
the Unauthorized-VAPI-request error and no insert. -/
theorem C4_secret_mismatch_401 (ctx : Ctx) (req : Req) (s : String)
    (hb : req.bodyJson.getD (.obj []) ≠ .null)
    (hs : ctx.vapiSecret = some s) (hsne : s ≠ "")
    (hh : req.xVapiSecret.getD "" ≠ s) :
    POST ctx req = (.response ⟨401, .errBody "Unauthorized VAPI request"⟩, none) := by
  rw [POST_body_eq ctx req hb]
  unfold POSTbody
  dsimp only
  have hsr : secretRejects ctx.vapiSecret (req.xVapiSecret.getD "") = true := by
    rw [hs]
    unfold secretRejects
    dsimp only
    rw [if_pos hsne, if_pos (Or.inr hh)]
  rw [if_pos hsr]

/-- C4 amended witness: configured secret, present but wrong header, plain
object body. -/
theorem C4_amended_witness :
    POST ctxC4 reqC4w = (.response ⟨401, .errBody "Unauthorized VAPI request"⟩, none) :=
  C4_secret_mismatch_401 ctxC4 reqC4w "sek" (fun h => nomatch h) rfl (by decide) (by decide)

/-- C5: on the exact model text of a JSON array with a duplicate, the
strict parse succeeds (so the fallback is never engaged) and the question
list keeps the duplicate. -/
theorem C5_strict_keeps_duplicates :
    strictParse "[\"Q1\",\"Q2\",\"Q2\",\"Q3\"]" = some ["Q1", "Q2", "Q2", "Q3"] ∧
    parseQuestions "[\"Q1\",\"Q2\",\"Q2\",\"Q3\"]" = ["Q1", "Q2", "Q2", "Q3"] :=
  ⟨rfl, rfl⟩

/-- C6: on the numbered-lines model text, the strict parse fails and the
fallback path yields exactly the two de-numbered questions. -/
theorem C6_fallback_numbered_lines :
    strictParse "1. What is X\n2. What is Y\n" = none ∧
    parseQuestions "1. What is X\n2. What is Y\n" = ["What is X", "What is Y"] :=
  ⟨rfl, rfl⟩

/-- C7 counterexample: a question span containing commas away from any
quoted-string boundary is not kept as one piece: the bare-comma alternative
of the split regex cuts it apart. -/
theorem C7_counterexample :
    strictParse "1. Choose A, B, or C" = none ∧
    parseQuestions "1. Choose A, B, or C" = ["Choose A", "B", "or C"] ∧
    parseQuestions "1. Choose A, B, or C" ≠ ["Choose A, B, or C"] := by
  refine ⟨rfl, rfl, ?_⟩
  decide

/-- C7 amended: the fallback split boundaries are newlines, the
quote-comma-quote patterns and every bare comma with optional surrounding
whitespace; consequently no question produced by the fallback path retains
a comma or a newline anywhere. -/
theorem C7_no_comma_survives (t q : String) (hq : q ∈ fallbackParse t) :
    ',' ∉ q.data ∧ '\n' ∉ q.data :=
  fallbackParse_sep_free t q hq

/-- C7 amended witness: a concrete fallback run and one of its questions. -/
theorem C7_amended_witness :
    (("A" : String) ∈ fallbackParse "1. A, B") ∧ ',' ∉ ("A" : String).data :=
  ⟨by decide, (C7_no_comma_survives "1. A, B" "A" (by decide)).1⟩

/-- C8: every record the handler hands to the collection insert has
finalized true and a non-empty questions list whose entries are non-empty
and carry no leading or trailing whitespace. -/
theorem C8_insert_invariant (ctx : Ctx) (req : Req) (rec : Interview)
    (h : (POST ctx req).2 = some rec) :
    rec.finalized = true ∧ rec.questions ≠ [] ∧
      ∀ q ∈ rec.questions, q ≠ "" ∧ noWsEdges q := by
  obtain ⟨_, hfin, hne, qt, _, hqs⟩ := POST_second ctx req rec h
  refine ⟨hfin, hne, ?_⟩
  intro q hq
  rw [hqs] at hq
  exact questionsFromText_elem qt q hq

/-- C8 witness: the record inserted for a concrete successful request. -/
theorem C8_witness :
    recC8.finalized = true ∧ recC8.questions ≠ [] ∧
      ∀ q ∈ recC8.questions, q ≠ "" ∧ noWsEdges q :=
  C8_insert_invariant ctxC8 reqC8 recC8 rfl

/-- C9 counterexample: the body JSON null misses every destructured field,
yet the handler throws at the destructuring, before the secret check, the
token step and the model call. -/
theorem C9_counterexample :
    reqC9.bodyJson = some .null ∧
    getField .null "type" = none ∧ getField .null "role" = none ∧
    getField .null "level" = none ∧ getField .null "techstack" = none ∧
    getField .null "amount" = none ∧ getField .null "userid" = none ∧
    POST ctxC9 reqC9 = (.thrown, none) :=
  ⟨rfl, rfl, rfl, rfl, rfl, rfl, rfl, rfl⟩

/-- C9 amended: for every request whose body JSON is not null and misses
all of the destructured fields, no exception escapes the handler before
the model call: the fields flow through as undefined and the body parse,
secret check and token steps never throw. -/
theorem C9_no_early_throw (ctx : Ctx) (req : Req)
    (hb : req.bodyJson.getD (.obj []) ≠ .null)
    (hmiss : ∀ k ∈ (["type", "role", "level", "techstack", "amount", "userid"] : List String),
      getField (req.bodyJson.getD (.obj [])) k = none) :
    (POST ctx req).1 ≠ .thrown ∧
    fieldsOf (req.bodyJson.getD (.obj [])) = ⟨none, none, none, none, none⟩ := by
  constructor
  · rw [POST_body_eq ctx req hb]
    unfold POSTbody
    dsimp only
    split
    · exact fun h => nomatch h
    · exact handleParsed_not_thrown ctx _ _
  · unfold fieldsOf
    rw [hmiss "type" (by simp), hmiss "role" (by simp), hmiss "level" (by simp),
      hmiss "techstack" (by simp), hmiss "userid" (by simp)]

/-- C9 amended witness: the empty-object body. -/
theorem C9_amended_witness :
    (POST ctxC9 reqC9w).1 ≠ .thrown ∧
    fieldsOf (reqC9w.bodyJson.getD (.obj [])) = ⟨none, none, none, none, none⟩ :=
  C9_no_early_throw ctxC9 reqC9w (fun h => nomatch h) (fun _ _ => rfl)

/-- C10: with VAPI_SECRET set to the empty string the truthiness test skips
the shared-secret check entirely, so no request is ever answered 401,
whatever its x-vapi-secret header. -/
theorem C10_empty_secret_never_401 (ctx : Ctx) (req : Req)
    (hs : ctx.vapiSecret = some "") :
    ∀ r, (POST ctx req).1 = .response r → r.status ≠ 401 := by
  intro r h
  by_cases hb : req.bodyJson.getD (.obj []) = .null
  · rw [show POST ctx req = (.thrown, none) from by unfold POST; rw [hb]] at h
    exact absurd h (fun hh => nomatch hh)
  · rw [POST_body_eq ctx req hb] at h
    unfold POSTbody at h
    dsimp only at h
    have hsr : secretRejects ctx.vapiSecret (req.xVapiSecret.getD "") = false := by
      rw [hs]
      unfold secretRejects
      dsimp only
      rw [if_neg (by simp)]
    rw [if_neg (by rw [hsr]; exact Bool.false_ne_true)] at h
    exact handleParsed_status_ne401 ctx _ _ r h

/-- C10 witness: empty-string secret, arbitrary header value, the request
sails through to a 200 response. -/
theorem C10_witness : (⟨200, .okBody⟩ : Resp).status ≠ 401 :=
  C10_empty_secret_never_401 ctxC10 reqC10 rfl ⟨200, .okBody⟩ rfl

end Vapi
